import Mathlib

/-!
Verification of the SpawnCanvas core engine.

This file is a shallow embedding of the geometry utilities, the drag/resize
controller (`src/canvas/app.js`), the history manager
(`src/canvas/core/history.js`) and the entity store / workspace manager
(`src/canvas/store.js`), together with theorems settling the specified
properties of those components.

Modelling conventions:
* Pointer coordinates, committed positions/sizes and timestamps are `Int`
  (the source manipulates them as plain numbers; all values involved are
  integral).  Item-center computations divide by 2, so they are carried out
  in `Rat`, exactly as the source's exact arithmetic on these values.
* `JSON.parse(JSON.stringify(x))` deep cloning of plain JSON data is the
  identity in this model, so history snapshots are the item lists themselves.
* JavaScript `Math.round(x)` is `⌊x + 1/2⌋` (halves round toward +∞); for an
  integer `raw`, `Math.round(raw / 20) * 20` is `((raw + 10).fdiv 20) * 20`.
* Asynchronous storage (`chrome.storage.local`) is modelled as explicit
  state: a list of workspace ids plus an association list of workspace data.
* `Date.now()` and `Math.random()`-based id generation are determinized by
  passing the produced timestamps / fresh ids as explicit parameters.
-/

namespace SpawnCanvas

/-- The source's `this.gridSize = 20` in `app.js`. -/
def gridSize : Int := 20

/-- The source's `this.canvasSize = 5000` in `app.js`. -/
def canvasSize : Int := 5000

/-- The source's `Math.round(raw / this.gridSize) * this.gridSize` for an integral `raw`:
JavaScript `Math.round` is floor of `x + 1/2`, so
`round(raw/20) = ⌊(raw + 10) / 20⌋`; `Int` division by the positive 20 is
exactly this floor division. -/
def snap (raw : Int) : Int := ((raw + 10) / gridSize) * gridSize

/-- An axis-aligned rectangle as consumed by `checkIntersection` in `app.js`
(`{left, top, width, height}`). -/
structure Rect where
  left : Int
  top : Int
  width : Int
  height : Int
  deriving DecidableEq

/-- The source's `checkIntersection(boxA, boxB)` from `app.js` (lines 1364-1372):
`!(boxA.left > boxB.left + boxB.width || boxA.left + boxA.width < boxB.left ||
boxA.top > boxB.top + boxB.height || boxA.top + boxA.height < boxB.top)`. -/
def checkIntersection (boxA boxB : Rect) : Bool :=
  !(decide (boxA.left > boxB.left + boxB.width) ||
    decide (boxA.left + boxA.width < boxB.left) ||
    decide (boxA.top > boxB.top + boxB.height) ||
    decide (boxA.top + boxA.height < boxB.top))

/-- C8: the rectangle intersection test is symmetric for all axis-aligned
rectangle pairs, and uses touch semantics: two rectangles with nonnegative
widths sharing an edge (A's right edge equals B's left edge, with overlap on
the other axis) are reported as intersecting. -/
theorem checkIntersection_symm_touch :
    (∀ a b : Rect, checkIntersection a b = checkIntersection b a) ∧
    (∀ a b : Rect, 0 ≤ a.width → 0 ≤ b.width → a.left + a.width = b.left →
      a.top ≤ b.top + b.height → b.top ≤ a.top + a.height →
      checkIntersection a b = true) := by
  constructor
  · intro a b
    rw [Bool.eq_iff_iff]
    simp only [checkIntersection, Bool.not_eq_true', Bool.or_eq_false_iff,
      decide_eq_false_iff_not, not_lt]
    omega
  · intro a b h1 h2 h3 h4 h5
    simp only [checkIntersection, Bool.not_eq_true', Bool.or_eq_false_iff,
      decide_eq_false_iff_not, not_lt]
    omega

/-- C8 witness: symmetry and edge-touching intersection evaluated on the
concrete pair A = (0,0,100,100), B = (100,0,50,100), which share exactly the
edge x = 100. -/
theorem checkIntersection_symm_touch_witness :
    checkIntersection ⟨0, 0, 100, 100⟩ ⟨100, 0, 50, 100⟩
        = checkIntersection ⟨100, 0, 50, 100⟩ ⟨0, 0, 100, 100⟩ ∧
    checkIntersection ⟨0, 0, 100, 100⟩ ⟨100, 0, 50, 100⟩ = true :=
  ⟨checkIntersection_symm_touch.1 ⟨0, 0, 100, 100⟩ ⟨100, 0, 50, 100⟩,
   checkIntersection_symm_touch.2 ⟨0, 0, 100, 100⟩ ⟨100, 0, 50, 100⟩
     (by decide) (by decide) (by decide) (by decide) (by decide)⟩

/-- A 2-d position `{x, y}`. -/
structure Pt where
  x : Int
  y : Int
  deriving DecidableEq

/-- A 2-d size `{width, height}`. -/
structure Sz where
  width : Int
  height : Int
  deriving DecidableEq

/-- A checklist entry: `{id, text, completed, nested}`. -/
structure ChecklistEntry where
  id : String
  text : String
  completed : Bool
  nested : Int
  deriving DecidableEq

/-- The item type strings used by the source: `'note' | 'checklist' |
'container' | 'image'`. -/
inductive ItemType where
  | note
  | checklist
  | container
  | image
  deriving DecidableEq

/-- A canvas item.  Shared base fields plus the variant payloads, which the
source stores as optional properties on one plain object: `content` (note),
`items` (checklist entries), `color` and `children` (container), `imageData`
(image). -/
structure Item where
  id : String
  type : ItemType
  title : String
  position : Pt
  size : Sz
  createdAt : Int
  updatedAt : Int
  content : Option String := none
  items : Option (List ChecklistEntry) := none
  color : Option String := none
  children : Option (List String) := none
  imageData : Option String := none
  deriving DecidableEq

/-- A partial-update object as passed to `Store.updateItem(id, changes)`:
each present field overwrites the item's field (`Object.assign`). -/
structure Changes where
  title : Option String := none
  position : Option Pt := none
  size : Option Sz := none
  content : Option String := none
  items : Option (List ChecklistEntry) := none
  color : Option String := none
  children : Option (List String) := none
  imageData : Option String := none
  deriving DecidableEq

/-- The source's `Object.assign(item, changes, { updatedAt: Date.now() })` from
`Store.updateItem`. -/
def applyChanges (i : Item) (ch : Changes) (now : Int) : Item :=
  { i with
    title := ch.title.getD i.title
    position := ch.position.getD i.position
    size := ch.size.getD i.size
    content := match ch.content with | some c => some c | none => i.content
    items := match ch.items with | some v => some v | none => i.items
    color := match ch.color with | some c => some c | none => i.color
    children := match ch.children with | some v => some v | none => i.children
    imageData := match ch.imageData with | some v => some v | none => i.imageData
    updatedAt := now }

/-- The in-place mutation step of `Store.updateItem`: find the first item
with the given id (`findIndex`), apply the changes to it, leave the rest of
the array untouched.  Returns the updated item and the updated array, or
`none` when the id matches no item. -/
def updateItems : List Item → String → Changes → Int → Option (Item × List Item)
  | [], _, _, _ => none
  | i :: rest, id, ch, now =>
    if i.id = id then
      let i' := applyChanges i ch now
      some (i', i' :: rest)
    else
      match updateItems rest id ch now with
      | none => none
      | some (r, l) => some (r, i :: l)

/-- The source's `Store.updateItem(id, { position })` as used by the drag controller's
`onMouseUp`; when the id is unknown the array is returned unchanged. -/
def commitPosition (l : List Item) (id : String) (p : Pt) (now : Int) : List Item :=
  match updateItems l id { position := some p } now with
  | none => l
  | some (_, l') => l'

/-- The source's `Store.updateItem(id, { size })` as used by the resize controller's
`onMouseUp`. -/
def commitSize (l : List Item) (id : String) (sz : Sz) (now : Int) : List Item :=
  match updateItems l id { size := some sz } now with
  | none => l
  | some (_, l') => l'

/-- The clamp applied on every drag move:
`x: Math.max(0, Math.min(newX, this.canvasSize - item.size.width))` and the
same for `y` with the height. -/
def clampPos (p : Pt) (sz : Sz) : Pt :=
  ⟨max 0 (min p.x (canvasSize - sz.width)),
   max 0 (min p.y (canvasSize - sz.height))⟩

/-- One `onMouseMove` step of `startDrag`: grid-snap the raw position
`startPos + delta`, then clamp to the canvas. -/
def dragMove (startPos : Pt) (sz : Sz) (d : Int × Int) : Pt :=
  clampPos ⟨snap (startPos.x + d.1), snap (startPos.y + d.2)⟩ sz

/-- The center-containment test of `getItemsInsideContainer`: the item's
center `position + size/2` lies within the container's bounding rectangle,
inclusive of its edges (`>=` / `<=` in the source).  The source computes the
center with an exact division by 2 (`item.size.width / 2`); the exact
comparison `L ≤ x + w/2` is equivalent to `2L ≤ 2x + w`, which keeps the
test in integer arithmetic. -/
def centerInsideContainer (item container : Item) : Bool :=
  let centerX2 : Int := 2 * item.position.x + item.size.width
  let centerY2 : Int := 2 * item.position.y + item.size.height
  decide (2 * container.position.x ≤ centerX2 ∧
    centerX2 ≤ 2 * (container.position.x + container.size.width) ∧
    2 * container.position.y ≤ centerY2 ∧
    centerY2 ≤ 2 * (container.position.y + container.size.height))

/-- The source's `getItemsInsideContainer(containerId)` from `app.js` (lines 2152-2171):
looks the container up by id, returns `[]` unless it is of type `container`,
and otherwise filters all items, rejecting the container itself and every
item of type `container`, and keeping the items whose center point lies
inside the container's bounds. -/
def getItemsInsideContainer (items : List Item) (containerId : String) : List Item :=
  match items.find? (fun i => i.id = containerId) with
  | none => []
  | some container =>
    if container.type ≠ ItemType.container then []
    else
      items.filter (fun item =>
        if item.id = containerId ∨ item.type = ItemType.container then false
        else centerInsideContainer item container)

/-- The committed effect of a whole `startDrag` interaction on the Store's
item array (`app.js` lines 2173-2254).  `deltas` is the sequence of pointer
deltas seen by `onMouseMove`; each move overwrites `_pendingPosition`, so the
committed position is determined by the last delta (no move: nothing is
committed).  If the dragged item is a container, the grouped items (computed
once at drag start) are each committed to the container's final position plus
their fixed start offset, clamped independently to the canvas. -/
def dragEnd (items : List Item) (itemId : String) (deltas : List (Int × Int))
    (now : Int) : List Item :=
  match items.find? (fun i => i.id = itemId) with
  | none => items
  | some item =>
    match deltas.getLast? with
    | none => items
    | some d =>
      let finalPos := dragMove item.position item.size d
      let grouped :=
        if item.type = ItemType.container then getItemsInsideContainer items itemId
        else []
      let items1 := commitPosition items itemId finalPos now
      grouped.foldl (fun acc g =>
        commitPosition acc g.id
          (clampPos ⟨finalPos.x + (g.position.x - item.position.x),
                     finalPos.y + (g.position.y - item.position.y)⟩ g.size) now) items1

/-- The type-specific minimum width of `startResize`: default 200, container
300, image 50. -/
def minWidth : ItemType → Int
  | ItemType.container => 300
  | ItemType.image => 50
  | _ => 200

/-- The type-specific minimum height of `startResize`: default 100, container
200, image 50. -/
def minHeight : ItemType → Int
  | ItemType.container => 200
  | ItemType.image => 50
  | _ => 100

/-- One `onMouseMove` step of `startResize`: for each resized axis, floor
`startSize + delta` at the type minimum, then grid-snap
(`Math.round(newWidth / this.gridSize) * this.gridSize`); a non-resized axis
keeps the start size.  `onRight` is `e`/`se` handles, `onBottom` is `s`/`se`. -/
def resizeMove (t : ItemType) (startSize : Sz) (onRight onBottom : Bool)
    (d : Int × Int) : Sz :=
  { width := if onRight then snap (max (minWidth t) (startSize.width + d.1))
             else startSize.width
    height := if onBottom then snap (max (minHeight t) (startSize.height + d.2))
              else startSize.height }

/-- The committed effect of a whole `startResize` interaction on the Store's
item array (`app.js` lines 2256-2315): the committed size is `resizeMove` of
the last pointer delta; the item's position is not touched, and no canvas
clamp is applied. -/
def resizeEnd (items : List Item) (itemId : String) (onRight onBottom : Bool)
    (deltas : List (Int × Int)) (now : Int) : List Item :=
  match items.find? (fun i => i.id = itemId) with
  | none => items
  | some item =>
    match deltas.getLast? with
    | none => items
    | some d =>
      commitSize items itemId (resizeMove item.type item.size onRight onBottom d) now

/-- The source's `MAX_HISTORY = 42` in `history.js`. -/
def MAX_HISTORY : Nat := 42

/-- A history snapshot: a deep clone of the Store's item array.  Deep cloning
of plain JSON data is the identity in this model. -/
abbrev Snapshot := List Item

/-- The mutable state of the `HistoryManager` module: the undo and redo
stacks and the `isRestoring` flag. -/
structure HistState where
  undoStack : List Snapshot
  redoStack : List Snapshot
  isRestoring : Bool
  deriving DecidableEq

namespace HistoryManager

/-- The source's `push(items)` from `history.js` (lines 96-114): no-op while restoring;
otherwise append a clone of the items to the undo stack, drop the oldest
entry (`shift()`) when the stack exceeds `MAX_HISTORY`, and clear the redo
stack. -/
def push (s : HistState) (items : Snapshot) : HistState :=
  if s.isRestoring then s
  else
    let u := s.undoStack ++ [items]
    { s with
      undoStack := if MAX_HISTORY < u.length then u.tail else u
      redoStack := [] }

/-- The source's `undo(currentItems)` from `history.js` (lines 121-138): returns `null`
when the undo stack is empty; otherwise pushes a clone of the current items
onto the redo stack and pops and returns the top of the undo stack. -/
def undo (s : HistState) (currentItems : Snapshot) : Option Snapshot × HistState :=
  match s.undoStack.getLast? with
  | none => (none, s)
  | some previousState =>
    (some previousState,
     { s with
       undoStack := s.undoStack.dropLast
       redoStack := s.redoStack ++ [currentItems] })

/-- The source's `redo(currentItems)` from `history.js` (lines 145-162): symmetric to
`undo`, popping from the redo stack. -/
def redo (s : HistState) (currentItems : Snapshot) : Option Snapshot × HistState :=
  match s.redoStack.getLast? with
  | none => (none, s)
  | some nextState =>
    (some nextState,
     { s with
       undoStack := s.undoStack ++ [currentItems]
       redoStack := s.redoStack.dropLast })

/-- A sequence of `push` calls, oldest first. -/
def pushAll (s : HistState) (l : List Snapshot) : HistState :=
  l.foldl push s

end HistoryManager

/-- A sample note used to instantiate universally quantified theorems. -/
def demoNote : Item :=
  { id := "item_1_aaaaaaa", type := ItemType.note, title := "",
    position := ⟨2500, 2500⟩, size := ⟨250, 180⟩,
    createdAt := 0, updatedAt := 0, content := some "" }

/-- The suffix of the last `n` elements of a list. -/
def lastN (n : Nat) (l : List α) : List α := l.drop (l.length - n)

theorem lastN_of_le {n : Nat} {l : List α} (h : l.length ≤ n) : lastN n l = l := by
  simp [lastN, Nat.sub_eq_zero_of_le h]

theorem lastN_append_of_le {n : Nat} (x y : List α) (h : n ≤ y.length) :
    lastN n (x ++ y) = lastN n y := by
  unfold lastN
  rw [List.length_append]
  have hx : x.length + y.length - n = x.length + (y.length - n) := by omega
  rw [hx, List.drop_append]

theorem lastN_append_lastN {n : Nat} (a l : List α) :
    lastN n (lastN n a ++ l) = lastN n (a ++ l) := by
  rcases le_or_lt a.length n with h | h
  · rw [lastN_of_le h]
  · have hlen : (lastN n a).length = n := by
      simp only [lastN, List.length_drop]
      omega
    conv_rhs => rw [← List.take_append_drop (a.length - n) a, List.append_assoc]
    conv_rhs => rw [lastN_append_of_le _ _
      (by simp only [List.length_append, List.length_drop]; omega)]
    rfl

theorem push_isRestoring (s : HistState) (x : Snapshot) :
    (HistoryManager.push s x).isRestoring = s.isRestoring := by
  unfold HistoryManager.push
  split <;> rfl

theorem push_undoStack (s : HistState) (x : Snapshot) (h : s.isRestoring = false)
    (hle : s.undoStack.length ≤ MAX_HISTORY) :
    (HistoryManager.push s x).undoStack = lastN MAX_HISTORY (s.undoStack ++ [x]) ∧
    (HistoryManager.push s x).undoStack.length ≤ MAX_HISTORY := by
  have hpush : (HistoryManager.push s x).undoStack
      = if MAX_HISTORY < (s.undoStack ++ [x]).length
        then (s.undoStack ++ [x]).tail else s.undoStack ++ [x] := by
    rw [HistoryManager.push, if_neg (by simp [h])]
  rw [hpush]
  have hl : (s.undoStack ++ [x]).length = s.undoStack.length + 1 := by simp
  by_cases hlen : MAX_HISTORY < (s.undoStack ++ [x]).length
  · rw [if_pos hlen]
    constructor
    · rw [← List.drop_one]
      unfold lastN
      congr 1
      omega
    · rw [List.length_tail]
      omega
  · rw [if_neg hlen]
    exact ⟨(lastN_of_le (by omega)).symm, by omega⟩

theorem pushAll_lastN :
    ∀ (l : List Snapshot) (s : HistState), s.isRestoring = false →
      s.undoStack.length ≤ MAX_HISTORY →
      (HistoryManager.pushAll s l).undoStack
        = lastN MAX_HISTORY (s.undoStack ++ l)
  | [], s, _, hle => by
    simpa [HistoryManager.pushAll] using (lastN_of_le hle).symm
  | x :: l, s, h, hle => by
    have hp := push_undoStack s x h hle
    have hr := push_isRestoring s x
    have ih := pushAll_lastN l (HistoryManager.push s x) (by rw [hr, h]) hp.2
    calc (HistoryManager.pushAll s (x :: l)).undoStack
        = (HistoryManager.pushAll (HistoryManager.push s x) l).undoStack := rfl
      _ = lastN MAX_HISTORY ((HistoryManager.push s x).undoStack ++ l) := ih
      _ = lastN MAX_HISTORY (lastN MAX_HISTORY (s.undoStack ++ [x]) ++ l) := by rw [hp.1]
      _ = lastN MAX_HISTORY ((s.undoStack ++ [x]) ++ l) := lastN_append_lastN _ _
      _ = lastN MAX_HISTORY (s.undoStack ++ x :: l) := by
          rw [List.append_assoc]
          rfl

/-- C3: for any prior history state (restoring flag off), any pre-mutation
snapshot `pre` and any post-mutation snapshot `post`: after `push pre`,
`undo post` returns exactly `pre`, and `redo pre` on the resulting state
returns exactly `post` (snapshots of plain JSON data, where deep cloning is
the identity). -/
theorem history_undo_redo_inverse (s : HistState) (pre post : Snapshot)
    (h : s.isRestoring = false) :
    (HistoryManager.undo (HistoryManager.push s pre) post).1 = some pre ∧
    (HistoryManager.redo
        (HistoryManager.undo (HistoryManager.push s pre) post).2 pre).1 = some post := by
  rw [HistoryManager.push, if_neg (by simp [h])]
  have hlast :
      (if MAX_HISTORY < (s.undoStack ++ [pre]).length
        then (s.undoStack ++ [pre]).tail
        else s.undoStack ++ [pre]).getLast? = some pre := by
    by_cases hlen : MAX_HISTORY < (s.undoStack ++ [pre]).length
    · rw [if_pos hlen]
      cases hu : s.undoStack with
      | nil => rw [hu] at hlen; simp [MAX_HISTORY] at hlen
      | cons a u => simp
    · rw [if_neg hlen]
      simp
  constructor
  · simp only [HistoryManager.undo, hlast]
  · simp only [HistoryManager.undo, hlast]
    simp [HistoryManager.redo]

/-- C3 witness: the inverse law evaluated from the empty history state, with
`pre = []` and `post = [demoNote]`. -/
theorem history_undo_redo_inverse_witness :
    (HistoryManager.undo (HistoryManager.push ⟨[], [], false⟩ []) [demoNote]).1
        = some [] ∧
    (HistoryManager.redo
        (HistoryManager.undo (HistoryManager.push ⟨[], [], false⟩ []) [demoNote]).2
        []).1 = some [demoNote] :=
  history_undo_redo_inverse ⟨[], [], false⟩ [] [demoNote] rfl

/-- C4: starting from any history state whose undo stack is within the bound
(an invariant of the module: stacks start empty and only `push` grows them),
after more than 42 pushes exactly the 42 most recent snapshots are retained,
in order — the oldest entries are the ones evicted. -/
theorem history_depth_bound (s : HistState) (l : List Snapshot)
    (h : s.isRestoring = false) (h0 : s.undoStack.length ≤ MAX_HISTORY)
    (hl : MAX_HISTORY < l.length) :
    (HistoryManager.pushAll s l).undoStack = l.drop (l.length - MAX_HISTORY) ∧
    (HistoryManager.pushAll s l).undoStack.length = MAX_HISTORY := by
  have hmain := pushAll_lastN l s h h0
  rw [hmain, lastN_append_of_le _ _ (Nat.le_of_lt hl)]
  refine ⟨rfl, ?_⟩
  simp only [lastN, List.length_drop]
  omega

/-- C4 witness: 43 pushes onto an empty history retain the last 42. -/
theorem history_depth_bound_witness :
    (HistoryManager.pushAll ⟨[], [], false⟩ (List.replicate 43 [])).undoStack
        = (List.replicate 43 ([] : Snapshot)).drop
            ((List.replicate 43 ([] : Snapshot)).length - MAX_HISTORY) ∧
    (HistoryManager.pushAll ⟨[], [], false⟩
        (List.replicate 43 ([] : Snapshot))).undoStack.length = MAX_HISTORY :=
  history_depth_bound ⟨[], [], false⟩ (List.replicate 43 []) rfl
    (by simp [MAX_HISTORY]) (by simp [MAX_HISTORY])

/-- C5: every `push` with the restoring flag off leaves the redo stack empty,
so an immediately following `redo` returns `null`, regardless of the state
before the push. -/
theorem push_clears_redo (s : HistState) (items cur : Snapshot)
    (h : s.isRestoring = false) :
    (HistoryManager.push s items).redoStack = [] ∧
    (HistoryManager.redo (HistoryManager.push s items) cur).1 = none := by
  rw [HistoryManager.push, if_neg (by simp [h])]
  exact ⟨rfl, rfl⟩

/-- C5 witness: a push after an undo-like state (non-empty redo stack) clears
the redo stack and makes `redo` return `null`. -/
theorem push_clears_redo_witness :
    (HistoryManager.push ⟨[], [[demoNote]], false⟩ [demoNote]).redoStack = [] ∧
    (HistoryManager.redo (HistoryManager.push ⟨[], [[demoNote]], false⟩ [demoNote])
        []).1 = none :=
  push_clears_redo ⟨[], [[demoNote]], false⟩ [demoNote] [] rfl

/-- A workspace document as persisted by `store.js`. -/
structure Workspace where
  id : String
  name : String
  viewportX : Int
  viewportY : Int
  items : List Item
  createdAt : Int
  updatedAt : Int
  deriving DecidableEq

/-- The Store's in-memory state relevant to item CRUD:
`let currentWorkspace = null`. -/
structure StoreState where
  currentWorkspace : Option Workspace
  deriving DecidableEq

/-- The change events emitted by the item CRUD operations. -/
inductive StoreEvent where
  | itemCreated (item : Item)
  | itemUpdated (item : Item)
  | itemDeleted (item : Item)
  deriving DecidableEq

/-- The `data` argument of `Store.createItem(type, data)`: a partial item
object whose present fields override the defaults (the source spreads
`...data` last, so even `id`, `type` and the timestamps can be overridden). -/
structure ItemData where
  id : Option String := none
  type : Option ItemType := none
  title : Option String := none
  position : Option Pt := none
  size : Option Sz := none
  createdAt : Option Int := none
  updatedAt : Option Int := none
  content : Option String := none
  items : Option (List ChecklistEntry) := none
  color : Option String := none
  children : Option (List String) := none
  imageData : Option String := none
  deriving DecidableEq

/-- JavaScript `v || dflt` for an optional string: an absent or empty
(falsy) string yields the default. -/
def jsOrString (v : Option String) (dflt : String) : String :=
  match v with
  | some s => if s = "" then dflt else s
  | none => dflt

/-- The `splice(findIndex(id), 1)` step of `Store.deleteItem`: remove the
first item with the given id, or `none` when the id matches no item. -/
def removeFirstItem : List Item → String → Option (Item × List Item)
  | [], _ => none
  | i :: rest, id =>
    if i.id = id then some (i, rest)
    else
      match removeFirstItem rest id with
      | none => none
      | some (r, l) => some (r, i :: l)

namespace Store

/-- The source's `Store.createItem(type, data)` from `store.js` (lines 950-986), with the
generated id and `Date.now()` passed explicitly.  Returns the created item
(or `null` when no workspace is loaded), the new state and the emitted
events. -/
def createItem (st : StoreState) (type : ItemType) (data : ItemData)
    (freshId : String) (now : Int) : Option Item × StoreState × List StoreEvent :=
  match st.currentWorkspace with
  | none => (none, st, [])
  | some ws =>
    let base : Item :=
      { id := data.id.getD freshId
        type := data.type.getD type
        title := data.title.getD ""
        position := data.position.getD ⟨2500, 2500⟩
        size := data.size.getD ⟨250, 180⟩
        createdAt := data.createdAt.getD now
        updatedAt := data.updatedAt.getD now
        content := data.content
        items := data.items
        color := data.color
        children := data.children
        imageData := data.imageData }
    let item :=
      match type with
      | ItemType.note => { base with content := some (jsOrString data.content "") }
      | ItemType.checklist => { base with items := some (data.items.getD []) }
      | ItemType.container =>
        { base with color := some (jsOrString data.color "blue")
                    children := some (data.children.getD []) }
      | ItemType.image => { base with imageData := some (jsOrString data.imageData "") }
    (some item,
     ⟨some { ws with items := ws.items ++ [item], updatedAt := now }⟩,
     [StoreEvent.itemCreated item])

/-- The source's `Store.updateItem(id, changes)` from `store.js` (lines 994-1012). -/
def updateItem (st : StoreState) (id : String) (changes : Changes) (now : Int) :
    Option Item × StoreState × List StoreEvent :=
  match st.currentWorkspace with
  | none => (none, st, [])
  | some ws =>
    match updateItems ws.items id changes now with
    | none => (none, st, [])
    | some (item, items') =>
      (some item, ⟨some { ws with items := items', updatedAt := now }⟩,
       [StoreEvent.itemUpdated item])

/-- The source's `Store.deleteItem(id)` from `store.js` (lines 1014-1030). -/
def deleteItem (st : StoreState) (id : String) (now : Int) :
    Bool × StoreState × List StoreEvent :=
  match st.currentWorkspace with
  | none => (false, st, [])
  | some ws =>
    match removeFirstItem ws.items id with
    | none => (false, st, [])
    | some (deletedItem, items') =>
      (true, ⟨some { ws with items := items', updatedAt := now }⟩,
       [StoreEvent.itemDeleted deletedItem])

/-- The source's `Store.getAllItems()`: an empty array when no workspace is loaded,
otherwise a (shallow copy of the) items array. -/
def getAllItems (st : StoreState) : List Item :=
  match st.currentWorkspace with
  | none => []
  | some ws => ws.items

end Store

/-- The portion of `chrome.storage.local` owned by the workspace manager:
the list of workspace ids plus the per-workspace data keys. -/
structure StorageModel where
  workspacesList : List String
  workspaceData : List (String × Workspace)
  deriving DecidableEq

namespace Store

/-- The source's `Store.deleteWorkspace(id)` from `store.js` (lines 844-868): refuses to
delete when the workspace list has at most one entry or when the id is not in
the list (`indexOf === -1`); otherwise removes the first occurrence from the
list (`splice`), removes the workspace's data key, and returns the first
remaining workspace id. -/
def deleteWorkspace (st : StorageModel) (id : String) : Option String × StorageModel :=
  if st.workspacesList.length ≤ 1 then (none, st)
  else if id ∈ st.workspacesList then
    let list' := st.workspacesList.erase id
    (list'.head?,
     { workspacesList := list'
       workspaceData := st.workspaceData.filter (fun kv => kv.1 ≠ id) })
  else (none, st)

end Store

theorem updateItems_eq_none {l : List Item} {id : String} {ch : Changes} {now : Int}
    (h : ∀ i ∈ l, i.id ≠ id) : updateItems l id ch now = none := by
  induction l with
  | nil => rfl
  | cons i rest ih =>
    simp only [updateItems, if_neg (h i (List.mem_cons_self i rest)),
      ih (fun j hj => h j (List.mem_cons_of_mem i hj))]

theorem removeFirstItem_eq_none {l : List Item} {id : String}
    (h : ∀ i ∈ l, i.id ≠ id) : removeFirstItem l id = none := by
  induction l with
  | nil => rfl
  | cons i rest ih =>
    simp only [removeFirstItem, if_neg (h i (List.mem_cons_self i rest)),
      ih (fun j hj => h j (List.mem_cons_of_mem i hj))]

/-- C9: the Store's item CRUD guards fail without mutating state and without
emitting events: with no workspace loaded, `createItem`/`updateItem` return
`null`, `deleteItem` returns `false` and `getAllItems` returns `[]`; with a
workspace loaded but an unknown id, `updateItem` returns `null` and
`deleteItem` returns `false`, in every case leaving the state unchanged and
emitting nothing. -/
theorem store_crud_guards :
    (∀ (t : ItemType) (data : ItemData) (freshId : String) (now : Int),
      Store.createItem ⟨none⟩ t data freshId now = (none, ⟨none⟩, [])) ∧
    (∀ (id : String) (ch : Changes) (now : Int),
      Store.updateItem ⟨none⟩ id ch now = (none, ⟨none⟩, [])) ∧
    (∀ (id : String) (now : Int),
      Store.deleteItem ⟨none⟩ id now = (false, ⟨none⟩, [])) ∧
    Store.getAllItems ⟨none⟩ = [] ∧
    (∀ (ws : Workspace) (id : String) (ch : Changes) (now : Int),
      (∀ i ∈ ws.items, i.id ≠ id) →
      Store.updateItem ⟨some ws⟩ id ch now = (none, ⟨some ws⟩, []) ∧
      Store.deleteItem ⟨some ws⟩ id now = (false, ⟨some ws⟩, [])) := by
  refine ⟨fun _ _ _ _ => rfl, fun _ _ _ => rfl, fun _ _ => rfl, rfl, ?_⟩
  intro ws id ch now h
  constructor
  · simp only [Store.updateItem, updateItems_eq_none h]
  · simp only [Store.deleteItem, removeFirstItem_eq_none h]

/-- A sample loaded workspace holding one note. -/
def demoWorkspace : Workspace :=
  ⟨"default", "Default Workspace", 0, 0, [demoNote], 0, 0⟩

/-- C9 witness: the unknown-id guards evaluated on a loaded workspace with
one item whose id is not the requested one. -/
theorem store_crud_guards_witness :
    Store.updateItem ⟨some demoWorkspace⟩ "missing" {} 5
        = (none, ⟨some demoWorkspace⟩, []) ∧
    Store.deleteItem ⟨some demoWorkspace⟩ "missing" 5
        = (false, ⟨some demoWorkspace⟩, []) :=
  store_crud_guards.2.2.2.2 demoWorkspace "missing" {} 5 (by decide)

/-- C10: `deleteWorkspace` refuses to act when the workspace list has at most
one entry, or when the id is not in the list: it returns `null` and leaves
both the workspace list and every stored workspace's data unchanged. -/
theorem deleteWorkspace_guards (st : StorageModel) (id : String)
    (h : st.workspacesList.length ≤ 1 ∨ id ∉ st.workspacesList) :
    Store.deleteWorkspace st id = (none, st) := by
  unfold Store.deleteWorkspace
  rcases h with h | h
  · rw [if_pos h]
  · by_cases h1 : st.workspacesList.length ≤ 1
    · rw [if_pos h1]
    · rw [if_neg h1, if_neg h]

/-- C10 witness: deleting the last remaining workspace, and deleting an
absent id, both return `null` and leave the storage untouched. -/
theorem deleteWorkspace_guards_witness :
    Store.deleteWorkspace ⟨["default"], [("default", demoWorkspace)]⟩ "default"
        = (none, ⟨["default"], [("default", demoWorkspace)]⟩) ∧
    Store.deleteWorkspace ⟨["a", "b"], []⟩ "missing" = (none, ⟨["a", "b"], []⟩) :=
  ⟨deleteWorkspace_guards ⟨["default"], [("default", demoWorkspace)]⟩ "default"
     (Or.inl (by decide)),
   deleteWorkspace_guards ⟨["a", "b"], []⟩ "missing" (Or.inr (by decide))⟩

/-- Is `c` one of the characters kept by the slug regex `[a-z0-9]`? -/
def isSlugChar (c : Char) : Bool :=
  ('a' ≤ c && c ≤ 'z') || ('0' ≤ c && c ≤ '9')

/-- Collapse runs of consecutive underscores to a single underscore: together
with mapping every non-`[a-z0-9]` character to `'_'`, this is
`replace(/[^a-z0-9]+/g, '_')`. -/
def collapseRuns : List Char → List Char
  | [] => []
  | [c] => [c]
  | c :: d :: rest =>
    if c = '_' && d = '_' then collapseRuns (d :: rest)
    else c :: collapseRuns (d :: rest)

/-- Drop one leading underscore (the `^_` alternative of `/^_|_$/g`). -/
def stripLead : List Char → List Char
  | '_' :: rest => rest
  | l => l

/-- Drop one trailing underscore (the `_$` alternative of `/^_|_$/g`). -/
def stripTrail (l : List Char) : List Char :=
  (stripLead l.reverse).reverse

/-- The source's `generateWorkspaceId(name)` from `store.js` (lines 672-680): lowercase,
replace runs of non-alphanumerics with `_`, strip one leading and one
trailing underscore, truncate to 30 characters, then append `_` and the
random suffix (the `Math.random()` part is the explicit `random` argument). -/
def generateWorkspaceId (name random : String) : String :=
  let lowered := name.toList.map Char.toLower
  let replaced := collapseRuns (lowered.map (fun c => if isSlugChar c then c else '_'))
  let slug := String.mk ((stripTrail (stripLead replaced)).take 30)
  slug ++ "_" ++ random

/-- The source's `chrome.storage.local.set({[key]: workspace})`: overwrite or add the
entry for the key in the workspace-data map. -/
def setAssoc : List (String × Workspace) → String → Workspace → List (String × Workspace)
  | [], k, w => [(k, w)]
  | (k', w') :: rest, k, w =>
    if k' = k then (k, w) :: rest else (k', w') :: setAssoc rest k w

/-- The source's `chrome.storage.local.get(key)`: look an entry up in the workspace-data
map. -/
def getAssoc : List (String × Workspace) → String → Option Workspace
  | [], _ => none
  | (k', w') :: rest, k => if k' = k then some w' else getAssoc rest k

/-- The id-regeneration step of `importWorkspace` for one (indexed) item:
`{...item, id: generateItemId(), items: item.items ? item.items.map(ci =>
({...ci, id: ...})) : undefined}`.  The fresh ids for the item and its
checklist entries come from the positional supplies. -/
def regenItem (itemIds : Nat → String) (ciIds : Nat → Nat → String)
    (ki : Nat × Item) : Item :=
  { ki.2 with
    id := itemIds ki.1
    items := match ki.2.items with
      | some entries =>
        some (entries.enum.map (fun je => { je.2 with id := ciIds ki.1 je.1 }))
      | none => none }

/-- The single-workspace export document
`{version, exportedAt, workspace: {name, viewportX, viewportY, items,
createdAt, updatedAt}}` (the nested `workspace` object is flattened here). -/
structure ExportData where
  version : Int
  exportedAt : Int
  name : String
  viewportX : Int
  viewportY : Int
  items : List Item
  createdAt : Int
  updatedAt : Int
  deriving DecidableEq

namespace Store

/-- The source's `Store.exportWorkspace()` from `store.js` (lines 1091-1118) for a loaded
workspace `w` (the JSON stringify/parse round trip is the identity on this
plain data). -/
def exportWorkspace (w : Workspace) (now : Int) : ExportData :=
  { version := 1
    exportedAt := now
    name := w.name
    viewportX := w.viewportX
    viewportY := w.viewportY
    items := w.items
    createdAt := w.createdAt
    updatedAt := w.updatedAt }

/-- The source's `Store.importWorkspace(jsonString)` from `store.js` (lines 1125-1178).
Validation: a falsy `data.workspace.name` (the empty string) throws, which is
caught and yields `null` with no mutation.  Otherwise a new workspace named
`name + ' (Imported)'` is built under a freshly generated id, every item id
and every nested checklist-entry id is regenerated (the `Date.now()` /
`Math.random()` draws are determinized as the `itemIds` / `ciIds` supplies,
indexed by item and entry position), the workspace is saved, and its id is
appended to the workspace list unless already present.  `viewportX || 0` on
an integer is the integer itself (the only falsy integer is 0). -/
def importWorkspace (st : StorageModel) (d : ExportData) (random : String)
    (itemIds : Nat → String) (ciIds : Nat → Nat → String) (now : Int) :
    Option Workspace × StorageModel :=
  if d.name = "" then (none, st)
  else
    let name := d.name ++ " (Imported)"
    let id := generateWorkspaceId name random
    let regenItems := d.items.enum.map (regenItem itemIds ciIds)
    let ws : Workspace :=
      { id := id, name := name, viewportX := d.viewportX, viewportY := d.viewportY,
        items := regenItems, createdAt := now, updatedAt := now }
    (some ws,
     { workspacesList :=
         if id ∈ st.workspacesList then st.workspacesList
         else st.workspacesList ++ [id]
       workspaceData := setAssoc st.workspaceData id ws })

end Store

theorem getAssoc_setAssoc_self (data : List (String × Workspace)) (k : String)
    (w : Workspace) : getAssoc (setAssoc data k w) k = some w := by
  induction data with
  | nil => simp [setAssoc, getAssoc]
  | cons kv rest ih =>
    by_cases h : kv.1 = k
    · simp [setAssoc, getAssoc, h]
    · simp [setAssoc, getAssoc, h, ih]

theorem getAssoc_setAssoc_other (data : List (String × Workspace)) (k k' : String)
    (w : Workspace) (h : k' ≠ k) :
    getAssoc (setAssoc data k w) k' = getAssoc data k' := by
  have hne : ¬ k = k' := fun he => h he.symm
  induction data with
  | nil => simp [setAssoc, getAssoc, hne]
  | cons kv rest ih =>
    obtain ⟨k0, w0⟩ := kv
    by_cases h1 : k0 = k
    · subst h1
      simp [setAssoc, getAssoc, hne]
    · by_cases h2 : k0 = k'
      · subst h2
        simp [setAssoc, getAssoc, h1]
      · simp [setAssoc, getAssoc, h1, h2, ih]

/-- Structural identity of imported checklist entries with the exported ones,
up to the regenerated entry ids. -/
def entriesMatch : Option (List ChecklistEntry) → Option (List ChecklistEntry) →
    (Nat → String) → Prop
  | none, none, _ => True
  | some orig, some imp, ids =>
      imp.length = orig.length ∧
      ∀ j (hj : j < imp.length) (hj' : j < orig.length),
        (imp.get ⟨j, hj⟩).id = ids j ∧
        (imp.get ⟨j, hj⟩).text = (orig.get ⟨j, hj'⟩).text ∧
        (imp.get ⟨j, hj⟩).completed = (orig.get ⟨j, hj'⟩).completed ∧
        (imp.get ⟨j, hj⟩).nested = (orig.get ⟨j, hj'⟩).nested
  | _, _, _ => False

/-- C7 (amended): importing the export of a workspace with a non-empty name
(every workspace-creation and rename path in the app enforces non-empty
names) creates a new workspace under the freshly generated id — assumed not
to collide with the listed ids, as the `Math.random()` suffix is meant to
guarantee — leaving every other stored workspace untouched, with every item
id and nested checklist-entry id regenerated and all other item structure
preserved. -/
theorem import_export_roundtrip
    (st : StorageModel) (w : Workspace) (expNow impNow : Int) (random : String)
    (itemIds : Nat → String) (ciIds : Nat → Nat → String)
    (hname : ¬ w.name = "")
    (hfresh : generateWorkspaceId (w.name ++ " (Imported)") random ∉ st.workspacesList) :
    ∃ ws',
      Store.importWorkspace st (Store.exportWorkspace w expNow) random itemIds ciIds impNow
        = (some ws',
           ⟨st.workspacesList ++ [generateWorkspaceId (w.name ++ " (Imported)") random],
            setAssoc st.workspaceData
              (generateWorkspaceId (w.name ++ " (Imported)") random) ws'⟩) ∧
      ws'.id = generateWorkspaceId (w.name ++ " (Imported)") random ∧
      (∀ k, k ≠ ws'.id →
        getAssoc (setAssoc st.workspaceData ws'.id ws') k = getAssoc st.workspaceData k) ∧
      getAssoc (setAssoc st.workspaceData ws'.id ws') ws'.id = some ws' ∧
      ws'.items.length = w.items.length ∧
      (∀ k (hk : k < ws'.items.length) (hk' : k < w.items.length),
        (ws'.items.get ⟨k, hk⟩).id = itemIds k ∧
        (ws'.items.get ⟨k, hk⟩).type = (w.items.get ⟨k, hk'⟩).type ∧
        (ws'.items.get ⟨k, hk⟩).title = (w.items.get ⟨k, hk'⟩).title ∧
        (ws'.items.get ⟨k, hk⟩).position = (w.items.get ⟨k, hk'⟩).position ∧
        (ws'.items.get ⟨k, hk⟩).size = (w.items.get ⟨k, hk'⟩).size ∧
        (ws'.items.get ⟨k, hk⟩).createdAt = (w.items.get ⟨k, hk'⟩).createdAt ∧
        (ws'.items.get ⟨k, hk⟩).updatedAt = (w.items.get ⟨k, hk'⟩).updatedAt ∧
        (ws'.items.get ⟨k, hk⟩).content = (w.items.get ⟨k, hk'⟩).content ∧
        (ws'.items.get ⟨k, hk⟩).color = (w.items.get ⟨k, hk'⟩).color ∧
        (ws'.items.get ⟨k, hk⟩).children = (w.items.get ⟨k, hk'⟩).children ∧
        (ws'.items.get ⟨k, hk⟩).imageData = (w.items.get ⟨k, hk'⟩).imageData ∧
        entriesMatch (w.items.get ⟨k, hk'⟩).items (ws'.items.get ⟨k, hk⟩).items
          (ciIds k)) := by
  refine ⟨{ id := generateWorkspaceId (w.name ++ " (Imported)") random
            name := w.name ++ " (Imported)"
            viewportX := w.viewportX
            viewportY := w.viewportY
            items := w.items.enum.map (regenItem itemIds ciIds)
            createdAt := impNow
            updatedAt := impNow }, ?_, rfl, ?_, ?_, ?_, ?_⟩
  · simp only [Store.importWorkspace, Store.exportWorkspace]
    rw [if_neg hname, if_neg hfresh]
  · intro k hk
    exact getAssoc_setAssoc_other _ _ _ _ hk
  · exact getAssoc_setAssoc_self _ _ _
  · simp
  · intro k hk hk'
    have hx : (w.items.enum.map (regenItem itemIds ciIds)).get ⟨k, hk⟩
        = regenItem itemIds ciIds (k, w.items.get ⟨k, hk'⟩) := by
      simp [List.getElem_map, List.getElem_enum]
    rw [hx]
    refine ⟨rfl, rfl, rfl, rfl, rfl, rfl, rfl, rfl, rfl, rfl, rfl, ?_⟩
    rcases horig : (w.items.get ⟨k, hk'⟩).items with _ | entries
    · simp only [regenItem, horig]
      exact trivial
    · simp only [regenItem, horig, entriesMatch]
      refine ⟨by simp, ?_⟩
      intro j hj hj'
      have hy : ((entries.enum.map
            (fun je => { je.2 with id := ciIds k je.1 })).get ⟨j, hj⟩)
          = { entries.get ⟨j, hj'⟩ with id := ciIds k j } := by
        simp [List.getElem_map, List.getElem_enum]
      rw [hy]
      exact ⟨rfl, rfl, rfl, rfl⟩

/-- A workspace whose name is the empty string (reachable at the Store level,
e.g. via `renameWorkspace(id, '')`, which has no emptiness guard). -/
def unnamedWorkspace : Workspace := ⟨"w1", "", 0, 0, [demoNote], 0, 0⟩

/-- C7 counterexample: exporting a workspace whose name is the empty string
and importing the result creates no workspace at all — the import's falsy
name check (`!data.workspace.name`) throws and `null` is returned with the
storage unchanged — contradicting the claim that importing an exported
document always creates a new workspace with regenerated ids. -/
theorem import_export_empty_name :
    Store.importWorkspace ⟨["w1"], [("w1", unnamedWorkspace)]⟩
        (Store.exportWorkspace unnamedWorkspace 10) "r1"
        (fun _ => "i") (fun _ _ => "c") 11
      = (none, ⟨["w1"], [("w1", unnamedWorkspace)]⟩) := by decide

/-- A sample checklist with two entries. -/
def demoChecklist : Item :=
  { id := "item_2_b", type := ItemType.checklist, title := "Launch",
    position := ⟨100, 120⟩, size := ⟨280, 200⟩, createdAt := 1, updatedAt := 2,
    items := some [⟨"ci_1_x", "A", false, 0⟩, ⟨"ci_1_y", "B", true, 1⟩] }

/-- A sample workspace with two items, one of them a checklist. -/
def importDemoWorkspace : Workspace := ⟨"w2", "Plan", 5, 7, [demoNote, demoChecklist], 1, 2⟩

/-- A sample storage state holding one other workspace. -/
def importDemoStorage : StorageModel := ⟨["default"], [("default", demoWorkspace)]⟩

/-- A sample deterministic supply of fresh item ids. -/
def demoItemIds : Nat → String := fun k => "item_9_" ++ Nat.repr k

/-- A sample deterministic supply of fresh checklist-entry ids. -/
def demoCiIds : Nat → Nat → String := fun k j => "ci_9_" ++ Nat.repr k ++ "_" ++ Nat.repr j

/-- C7 witness: the round trip evaluated on a concrete workspace with a note
and a checklist, imported into a storage holding one other workspace. -/
theorem import_export_roundtrip_witness :
    ¬ importDemoWorkspace.name = "" ∧
    generateWorkspaceId (importDemoWorkspace.name ++ " (Imported)") "r2"
        ∉ importDemoStorage.workspacesList ∧
    (∃ ws',
      Store.importWorkspace importDemoStorage
          (Store.exportWorkspace importDemoWorkspace 3) "r2" demoItemIds demoCiIds 4
        = (some ws',
           ⟨importDemoStorage.workspacesList ++
              [generateWorkspaceId (importDemoWorkspace.name ++ " (Imported)") "r2"],
            setAssoc importDemoStorage.workspaceData
              (generateWorkspaceId (importDemoWorkspace.name ++ " (Imported)") "r2") ws'⟩) ∧
      ws'.id = generateWorkspaceId (importDemoWorkspace.name ++ " (Imported)") "r2" ∧
      (∀ k, k ≠ ws'.id →
        getAssoc (setAssoc importDemoStorage.workspaceData ws'.id ws') k
          = getAssoc importDemoStorage.workspaceData k) ∧
      getAssoc (setAssoc importDemoStorage.workspaceData ws'.id ws') ws'.id = some ws' ∧
      ws'.items.length = importDemoWorkspace.items.length ∧
      (∀ k (hk : k < ws'.items.length) (hk' : k < importDemoWorkspace.items.length),
        (ws'.items.get ⟨k, hk⟩).id = demoItemIds k ∧
        (ws'.items.get ⟨k, hk⟩).type = (importDemoWorkspace.items.get ⟨k, hk'⟩).type ∧
        (ws'.items.get ⟨k, hk⟩).title = (importDemoWorkspace.items.get ⟨k, hk'⟩).title ∧
        (ws'.items.get ⟨k, hk⟩).position
          = (importDemoWorkspace.items.get ⟨k, hk'⟩).position ∧
        (ws'.items.get ⟨k, hk⟩).size = (importDemoWorkspace.items.get ⟨k, hk'⟩).size ∧
        (ws'.items.get ⟨k, hk⟩).createdAt
          = (importDemoWorkspace.items.get ⟨k, hk'⟩).createdAt ∧
        (ws'.items.get ⟨k, hk⟩).updatedAt
          = (importDemoWorkspace.items.get ⟨k, hk'⟩).updatedAt ∧
        (ws'.items.get ⟨k, hk⟩).content
          = (importDemoWorkspace.items.get ⟨k, hk'⟩).content ∧
        (ws'.items.get ⟨k, hk⟩).color = (importDemoWorkspace.items.get ⟨k, hk'⟩).color ∧
        (ws'.items.get ⟨k, hk⟩).children
          = (importDemoWorkspace.items.get ⟨k, hk'⟩).children ∧
        (ws'.items.get ⟨k, hk⟩).imageData
          = (importDemoWorkspace.items.get ⟨k, hk'⟩).imageData ∧
        entriesMatch (importDemoWorkspace.items.get ⟨k, hk'⟩).items
          (ws'.items.get ⟨k, hk⟩).items (demoCiIds k))) :=
  ⟨by decide, by decide,
   import_export_roundtrip importDemoStorage importDemoWorkspace 3 4 "r2"
     demoItemIds demoCiIds (by decide) (by decide)⟩

theorem snap_lower {a k : Int} (h : 20 * k ≤ a + 10) : 20 * k ≤ snap a := by
  have h20 : (0 : Int) < 20 := by norm_num
  have h2 : k ≤ (a + 10) / 20 := by
    rw [Int.le_ediv_iff_mul_le h20]
    linarith
  have h3 := mul_le_mul_of_nonneg_right h2 (le_of_lt h20)
  simp only [snap, gridSize]
  linarith

theorem min_le_snap_max {m x k : Int} (h1 : m ≤ 20 * k) (h2 : 20 * k ≤ m + 10) :
    m ≤ snap (max m x) := by
  have ha : m ≤ max m x := le_max_left m x
  exact le_trans h1 (snap_lower (by linarith))

theorem minWidth_le_snap (t : ItemType) (x : Int) :
    minWidth t ≤ snap (max (minWidth t) x) := by
  cases t
  · exact min_le_snap_max (k := 10) (by decide) (by decide)
  · exact min_le_snap_max (k := 10) (by decide) (by decide)
  · exact min_le_snap_max (k := 15) (by decide) (by decide)
  · exact min_le_snap_max (k := 3) (by decide) (by decide)

theorem minHeight_le_snap (t : ItemType) (x : Int) :
    minHeight t ≤ snap (max (minHeight t) x) := by
  cases t
  · exact min_le_snap_max (k := 5) (by decide) (by decide)
  · exact min_le_snap_max (k := 5) (by decide) (by decide)
  · exact min_le_snap_max (k := 10) (by decide) (by decide)
  · exact min_le_snap_max (k := 3) (by decide) (by decide)

theorem clampPos_within (p : Pt) (sz : Sz) (hw : sz.width ≤ canvasSize)
    (hh : sz.height ≤ canvasSize) :
    0 ≤ (clampPos p sz).x ∧ (clampPos p sz).x + sz.width ≤ canvasSize ∧
    0 ≤ (clampPos p sz).y ∧ (clampPos p sz).y + sz.height ≤ canvasSize := by
  simp only [clampPos]
  refine ⟨le_max_left 0 _, ?_, le_max_left 0 _, ?_⟩
  · have h1 : max 0 (min p.x (canvasSize - sz.width)) ≤ canvasSize - sz.width :=
      max_le (by linarith) (min_le_right _ _)
    linarith
  · have h1 : max 0 (min p.y (canvasSize - sz.height)) ≤ canvasSize - sz.height :=
      max_le (by linarith) (min_le_right _ _)
    linarith

theorem applyChanges_id (i : Item) (ch : Changes) (now : Int) :
    (applyChanges i ch now).id = i.id := rfl

theorem applyChanges_position (i : Item) (p : Pt) (now : Int) :
    applyChanges i { position := some p } now
      = { i with position := p, updatedAt := now } := rfl

theorem applyChanges_size (i : Item) (sz : Sz) (now : Int) :
    applyChanges i { size := some sz } now
      = { i with size := sz, updatedAt := now } := rfl

theorem updateItems_mem {l : List Item} {id : String} {ch : Changes} {now : Int}
    {r : Item} {l' : List Item} (h : updateItems l id ch now = some (r, l')) :
    ∀ x ∈ l', x ∈ l ∨ x = r := by
  induction l generalizing l' with
  | nil => simp [updateItems] at h
  | cons i rest ih =>
    rw [updateItems] at h
    by_cases hid : i.id = id
    · rw [if_pos hid, Option.some.injEq, Prod.mk.injEq] at h
      intro x hx
      rw [← h.2] at hx
      rcases List.mem_cons.mp hx with hx | hx
      · right; rw [hx, h.1]
      · left; exact List.mem_cons_of_mem _ hx
    · rw [if_neg hid] at h
      cases hrec : updateItems rest id ch now with
      | none => rw [hrec] at h; exact absurd h (by simp)
      | some rl =>
        obtain ⟨r0, l0⟩ := rl
        rw [hrec, Option.some.injEq, Prod.mk.injEq] at h
        intro x hx
        rw [← h.2] at hx
        rcases List.mem_cons.mp hx with hx | hx
        · left; rw [hx]; exact List.mem_cons_self _ _
        · rcases ih (h.1 ▸ hrec) x hx with h1 | h1
          · left; exact List.mem_cons_of_mem _ h1
          · right; exact h1

theorem updateItems_first {l : List Item} {id : String} {ch : Changes} {now : Int}
    {r : Item} {l' : List Item} (h : updateItems l id ch now = some (r, l')) :
    ∃ i, l.find? (fun a => a.id = id) = some i ∧ r = applyChanges i ch now := by
  induction l generalizing l' with
  | nil => simp [updateItems] at h
  | cons i rest ih =>
    rw [updateItems] at h
    by_cases hid : i.id = id
    · rw [if_pos hid, Option.some.injEq, Prod.mk.injEq] at h
      exact ⟨i, by simp [List.find?_cons, hid], h.1.symm⟩
    · rw [if_neg hid] at h
      cases hrec : updateItems rest id ch now with
      | none => rw [hrec] at h; exact absurd h (by simp)
      | some rl =>
        obtain ⟨r0, l0⟩ := rl
        rw [hrec, Option.some.injEq, Prod.mk.injEq] at h
        obtain ⟨i0, hfind, hr⟩ := ih (h.1 ▸ hrec)
        exact ⟨i0, by simp [List.find?_cons, hid, hfind], hr⟩

theorem updateItems_of_find? {l : List Item} {id : String} {i : Item}
    (ch : Changes) (now : Int) (hfind : l.find? (fun a => a.id = id) = some i) :
    ∃ l', updateItems l id ch now = some (applyChanges i ch now, l') := by
  induction l with
  | nil => simp [List.find?] at hfind
  | cons j rest ih =>
    rw [List.find?_cons] at hfind
    by_cases hid : j.id = id
    · simp only [hid, decide_True] at hfind
      rw [Option.some.injEq] at hfind
      subst hfind
      exact ⟨applyChanges j ch now :: rest, by rw [updateItems, if_pos hid]⟩
    · simp only [hid, decide_False] at hfind
      obtain ⟨l0, hup⟩ := ih hfind
      exact ⟨j :: l0, by rw [updateItems, if_neg hid, hup]⟩

theorem find?_updateItems_self {l : List Item} {id : String} {ch : Changes} {now : Int}
    {r : Item} {l' : List Item} (h : updateItems l id ch now = some (r, l')) :
    l'.find? (fun a => a.id = id) = some r := by
  induction l generalizing l' with
  | nil => simp [updateItems] at h
  | cons i rest ih =>
    rw [updateItems] at h
    by_cases hid : i.id = id
    · rw [if_pos hid, Option.some.injEq, Prod.mk.injEq] at h
      rw [← h.2, ← h.1, List.find?_cons]
      simp [applyChanges_id, hid]
    · rw [if_neg hid] at h
      cases hrec : updateItems rest id ch now with
      | none => rw [hrec] at h; exact absurd h (by simp)
      | some rl =>
        obtain ⟨r0, l0⟩ := rl
        rw [hrec, Option.some.injEq, Prod.mk.injEq] at h
        rw [← h.2, List.find?_cons]
        simp only [hid, decide_False]
        exact h.1 ▸ ih (h.1 ▸ hrec)

theorem find?_updateItems_other {l : List Item} {id y : String} {ch : Changes}
    {now : Int} {r : Item} {l' : List Item}
    (h : updateItems l id ch now = some (r, l')) (hy : y ≠ id) :
    l'.find? (fun a => a.id = y) = l.find? (fun a => a.id = y) := by
  induction l generalizing l' with
  | nil => simp [updateItems] at h
  | cons i rest ih =>
    rw [updateItems] at h
    by_cases hid : i.id = id
    · rw [if_pos hid, Option.some.injEq, Prod.mk.injEq] at h
      rw [← h.2, List.find?_cons, List.find?_cons]
      have hiy : ¬ i.id = y := fun he => hy (he ▸ hid.symm ▸ rfl)
      simp [applyChanges_id, hiy]
    · rw [if_neg hid] at h
      cases hrec : updateItems rest id ch now with
      | none => rw [hrec] at h; exact absurd h (by simp)
      | some rl =>
        obtain ⟨r0, l0⟩ := rl
        rw [hrec, Option.some.injEq, Prod.mk.injEq] at h
        rw [← h.2, List.find?_cons, List.find?_cons]
        by_cases hiy : i.id = y
        · simp [hiy]
        · simp only [hiy, decide_False]
          exact ih (h.1 ▸ hrec)

theorem find?_commitPosition_self {l : List Item} {id : String} {p : Pt} {now : Int}
    {i : Item} (hfind : l.find? (fun a => a.id = id) = some i) :
    (commitPosition l id p now).find? (fun a => a.id = id)
      = some (applyChanges i { position := some p } now) := by
  obtain ⟨l', hup⟩ := updateItems_of_find? { position := some p } now hfind
  rw [commitPosition, hup]
  exact find?_updateItems_self hup

theorem find?_commitPosition_other {l : List Item} {id y : String} {p : Pt}
    {now : Int} (hy : y ≠ id) :
    (commitPosition l id p now).find? (fun a => a.id = y)
      = l.find? (fun a => a.id = y) := by
  rw [commitPosition]
  cases hup : updateItems l id { position := some p } now with
  | none => rfl
  | some rl => exact find?_updateItems_other hup hy

theorem find?_eq_self_of_nodup {l : List Item} {i : Item}
    (hnd : (l.map Item.id).Nodup) (hi : i ∈ l) :
    l.find? (fun a => a.id = i.id) = some i := by
  induction l with
  | nil => cases hi
  | cons j rest ih =>
    rw [List.map_cons, List.nodup_cons] at hnd
    rcases List.mem_cons.mp hi with hji | hi'
    · rw [hji, List.find?_cons]
      simp
    · by_cases hj : j.id = i.id
      · exact absurd (hj ▸ List.mem_map_of_mem Item.id hi') hnd.1
      · rw [List.find?_cons]
        simp only [hj, decide_False]
        exact ih hnd.2 hi'

theorem mem_of_mem_getItemsInsideContainer {items : List Item} {cid : String}
    {g : Item} (hg : g ∈ getItemsInsideContainer items cid) : g ∈ items := by
  unfold getItemsInsideContainer at hg
  cases hfind : items.find? (fun i => i.id = cid) with
  | none => simp only [hfind] at hg; cases hg
  | some c =>
    simp only [hfind] at hg
    by_cases ht : c.type ≠ ItemType.container
    · rw [if_pos ht] at hg; cases hg
    · rw [if_neg ht] at hg
      exact (List.mem_filter.mp hg).1

theorem mem_getItemsInsideContainer_iff {items : List Item} {c : Item} {cid : String}
    {i : Item} (hfind : items.find? (fun a => a.id = cid) = some c)
    (hct : c.type = ItemType.container) :
    i ∈ getItemsInsideContainer items cid ↔
      i ∈ items ∧ ¬(i.id = cid ∨ i.type = ItemType.container) ∧
        centerInsideContainer i c = true := by
  unfold getItemsInsideContainer
  simp only [hfind]
  rw [if_neg (by simp [hct])]
  have hpred : ∀ x : Item,
      ((if x.id = cid ∨ x.type = ItemType.container then false
        else centerInsideContainer x c) = true) ↔
        (¬(x.id = cid ∨ x.type = ItemType.container) ∧
          centerInsideContainer x c = true) := by
    intro x
    by_cases hc : x.id = cid ∨ x.type = ItemType.container
    · simp [hc]
    · simp [hc]
  rw [List.mem_filter, hpred i]

theorem nodup_getItemsInsideContainer {items : List Item} {cid : String}
    (hnd : (items.map Item.id).Nodup) :
    ((getItemsInsideContainer items cid).map Item.id).Nodup := by
  unfold getItemsInsideContainer
  cases hfind : items.find? (fun i => i.id = cid) with
  | none => simp [hfind]
  | some c =>
    simp only [hfind]
    by_cases ht : c.type ≠ ItemType.container
    · rw [if_pos ht]; simp
    · rw [if_neg ht]
      exact hnd.sublist ((List.filter_sublist _).map Item.id)

theorem foldl_commit_find?_not_mem (gs : List Item) (F : Item → Pt) (now : Int)
    (y : String) :
    ∀ (acc : List Item), (∀ g ∈ gs, g.id ≠ y) →
    (gs.foldl (fun acc g => commitPosition acc g.id (F g) now) acc).find?
        (fun a => a.id = y)
      = acc.find? (fun a => a.id = y) := by
  induction gs with
  | nil => intro acc _; rfl
  | cons g gs ih =>
    intro acc hnot
    rw [List.foldl_cons]
    rw [ih _ (fun g' hg' => hnot g' (List.mem_cons_of_mem _ hg'))]
    exact find?_commitPosition_other
      (fun he => hnot g (List.mem_cons_self _ _) he.symm)

theorem foldl_commit_find?_mem (gs : List Item) (F : Item → Pt) (now : Int)
    (i : Item) :
    ∀ (acc : List Item), (gs.map Item.id).Nodup → i ∈ gs →
    acc.find? (fun a => a.id = i.id) = some i →
    (gs.foldl (fun acc g => commitPosition acc g.id (F g) now) acc).find?
        (fun a => a.id = i.id)
      = some (applyChanges i { position := some (F i) } now) := by
  induction gs with
  | nil => intro acc _ hi _; cases hi
  | cons g gs ih =>
    intro acc hnd hi hacc
    rw [List.map_cons, List.nodup_cons] at hnd
    rw [List.foldl_cons]
    rcases List.mem_cons.mp hi with hgi | hi'
    · rw [foldl_commit_find?_not_mem gs F now i.id _
        (fun g' hg' hg'e => hnd.1 (hgi ▸ hg'e ▸ List.mem_map_of_mem Item.id hg'))]
      rw [← hgi]
      exact find?_commitPosition_self hacc
    · have hgne : i.id ≠ g.id :=
        fun he => hnd.1 (he ▸ List.mem_map_of_mem Item.id hi')
      refine ih _ hnd.2 hi' ?_
      rw [find?_commitPosition_other hgne]
      exact hacc

theorem find?_commitSize_self {l : List Item} {id : String} {sz : Sz} {now : Int}
    {i : Item} (hfind : l.find? (fun a => a.id = id) = some i) :
    (commitSize l id sz now).find? (fun a => a.id = id)
      = some (applyChanges i { size := some sz } now) := by
  obtain ⟨l', hup⟩ := updateItems_of_find? { size := some sz } now hfind
  rw [commitSize, hup]
  exact find?_updateItems_self hup

/-- C6: after any resize completes, the committed size respects the
type-specific minimum — note/checklist 200×100, container 300×200, image
50×50 — for every final pointer delta (a non-resized axis keeps the start
size, which respects the minimum for every item the app creates); and in
particular resizing a checklist toward a requested `(10,10)` commits exactly
`(200,100)`. -/
theorem resize_min_size (items : List Item) (i : Item) (itemId : String)
    (onRight onBottom : Bool) (deltas : List (Int × Int)) (d : Int × Int) (now : Int)
    (hfind : items.find? (fun a => a.id = itemId) = some i)
    (hlast : deltas.getLast? = some d)
    (hw : onRight = false → minWidth i.type ≤ i.size.width)
    (hh : onBottom = false → minHeight i.type ≤ i.size.height) :
    ((resizeEnd items itemId onRight onBottom deltas now).find? (fun a => a.id = itemId)
        = some { i with size := resizeMove i.type i.size onRight onBottom d
                        updatedAt := now } ∧
      minWidth i.type ≤ (resizeMove i.type i.size onRight onBottom d).width ∧
      minHeight i.type ≤ (resizeMove i.type i.size onRight onBottom d).height) ∧
    resizeEnd [demoChecklist] "item_2_b" true true [(-270, -190)] 7
      = [{ demoChecklist with size := ⟨200, 100⟩, updatedAt := 7 }] := by
  refine ⟨⟨?_, ?_, ?_⟩, by decide⟩
  · have hre : resizeEnd items itemId onRight onBottom deltas now
        = commitSize items itemId (resizeMove i.type i.size onRight onBottom d) now := by
      unfold resizeEnd
      simp only [hfind, hlast]
    rw [hre, find?_commitSize_self hfind, applyChanges_size]
  · cases onRight with
    | true => simpa [resizeMove] using minWidth_le_snap i.type (i.size.width + d.1)
    | false => simpa [resizeMove] using hw rfl
  · cases onBottom with
    | true => simpa [resizeMove] using minHeight_le_snap i.type (i.size.height + d.2)
    | false => simpa [resizeMove] using hh rfl

/-- C6 witness: a note resized by the corner handle toward a tiny target,
evaluated concretely. -/
theorem resize_min_size_witness :
    ((resizeEnd [demoNote] "item_1_aaaaaaa" true true [(5, -500)] 3).find?
        (fun a => a.id = "item_1_aaaaaaa")
        = some { demoNote with
            size := resizeMove demoNote.type demoNote.size true true (5, -500)
            updatedAt := 3 } ∧
      minWidth demoNote.type
        ≤ (resizeMove demoNote.type demoNote.size true true (5, -500)).width ∧
      minHeight demoNote.type
        ≤ (resizeMove demoNote.type demoNote.size true true (5, -500)).height) ∧
    resizeEnd [demoChecklist] "item_2_b" true true [(-270, -190)] 7
      = [{ demoChecklist with size := ⟨200, 100⟩, updatedAt := 7 }] :=
  resize_min_size [demoNote] demoNote "item_1_aaaaaaa" true true [(5, -500)]
    (5, -500) 3 (by decide) (by decide) (by decide) (by decide)

/-- C1 (amended): after any drag completes, every item that the drag moved
(the dragged item and any container-grouped items) is committed at a clamped
position: `0 ≤ x`, `x + width ≤ 5000`, `0 ≤ y`, `y + height ≤ 5000`, for any
sequence of pointer deltas, provided every item's size fits the canvas; a
resize, by contrast, is not clamped to the canvas (see the counterexample). -/
theorem drag_commit_within_canvas (items : List Item) (itemId : String)
    (deltas : List (Int × Int)) (now : Int)
    (hnd : (items.map Item.id).Nodup)
    (hsz : ∀ i ∈ items, i.size.width ≤ canvasSize ∧ i.size.height ≤ canvasSize) :
    ∀ j ∈ dragEnd items itemId deltas now,
      ∃ i ∈ items, j.id = i.id ∧ j.size = i.size ∧
        (j.position = i.position ∨
          (0 ≤ j.position.x ∧ j.position.x + j.size.width ≤ canvasSize ∧
           0 ≤ j.position.y ∧ j.position.y + j.size.height ≤ canvasSize)) := by
  intro j hj
  unfold dragEnd at hj
  cases hfind : items.find? (fun i => i.id = itemId) with
  | none =>
    simp only [hfind] at hj
    exact ⟨j, hj, rfl, rfl, Or.inl rfl⟩
  | some item =>
    simp only [hfind] at hj
    cases hlast : deltas.getLast? with
    | none =>
      simp only [hlast] at hj
      exact ⟨j, hj, rfl, rfl, Or.inl rfl⟩
    | some d =>
      simp only [hlast] at hj
      have hitem : item ∈ items := List.mem_of_find?_eq_some hfind
      have haccP : ∀ x ∈ commitPosition items itemId
          (dragMove item.position item.size d) now,
          ∃ i ∈ items, x.id = i.id ∧ x.size = i.size ∧
            (x.position = i.position ∨
              (0 ≤ x.position.x ∧ x.position.x + x.size.width ≤ canvasSize ∧
               0 ≤ x.position.y ∧ x.position.y + x.size.height ≤ canvasSize)) := by
        intro x hx
        rw [commitPosition] at hx
        cases hup : updateItems items itemId
            { position := some (dragMove item.position item.size d) } now with
        | none =>
          rw [hup] at hx
          exact ⟨x, hx, rfl, rfl, Or.inl rfl⟩
        | some rl =>
          obtain ⟨r, l'⟩ := rl
          rw [hup] at hx
          rcases updateItems_mem hup x hx with hmem | hxr
          · exact ⟨x, hmem, rfl, rfl, Or.inl rfl⟩
          · obtain ⟨i0, hfind0, hr⟩ := updateItems_first hup
            rw [hfind] at hfind0
            rw [Option.some.injEq] at hfind0
            subst hfind0
            subst hxr
            rw [hr, applyChanges_position]
            have hcw := clampPos_within
              ⟨snap (item.position.x + d.1), snap (item.position.y + d.2)⟩ item.size
              (hsz item hitem).1 (hsz item hitem).2
            exact ⟨item, hitem, rfl, rfl,
              Or.inr ⟨hcw.1, hcw.2.1, hcw.2.2.1, hcw.2.2.2⟩⟩
      have hfold : ∀ (gs : List Item), (∀ g ∈ gs, g ∈ items) →
          ∀ (acc : List Item),
          (∀ x ∈ acc,
            ∃ i ∈ items, x.id = i.id ∧ x.size = i.size ∧
              (x.position = i.position ∨
                (0 ≤ x.position.x ∧ x.position.x + x.size.width ≤ canvasSize ∧
                 0 ≤ x.position.y ∧ x.position.y + x.size.height ≤ canvasSize))) →
          ∀ x ∈ gs.foldl (fun acc g =>
              commitPosition acc g.id
                (clampPos ⟨(dragMove item.position item.size d).x
                    + (g.position.x - item.position.x),
                  (dragMove item.position item.size d).y
                    + (g.position.y - item.position.y)⟩ g.size) now) acc,
            ∃ i ∈ items, x.id = i.id ∧ x.size = i.size ∧
              (x.position = i.position ∨
                (0 ≤ x.position.x ∧ x.position.x + x.size.width ≤ canvasSize ∧
                 0 ≤ x.position.y ∧ x.position.y + x.size.height ≤ canvasSize)) := by
        intro gs
        induction gs with
        | nil => intro _ acc hacc x hx; exact hacc x hx
        | cons g gs ih =>
          intro hgsub acc hacc
          rw [List.foldl_cons]
          refine ih (fun g' h' => hgsub g' (List.mem_cons_of_mem _ h')) _ ?_
          intro x hx
          rw [commitPosition] at hx
          cases hup : updateItems acc g.id
              { position := some (clampPos
                  ⟨(dragMove item.position item.size d).x
                      + (g.position.x - item.position.x),
                    (dragMove item.position item.size d).y
                      + (g.position.y - item.position.y)⟩ g.size) } now with
          | none =>
            rw [hup] at hx
            exact hacc x hx
          | some rl =>
            obtain ⟨r, l'⟩ := rl
            rw [hup] at hx
            rcases updateItems_mem hup x hx with hmem | hxr
            · exact hacc x hmem
            · obtain ⟨i0, hfind0, hr⟩ := updateItems_first hup
              have hi0g : i0.id = g.id := by
                have := List.find?_some hfind0
                simpa using this
              have hi0acc : i0 ∈ acc := List.mem_of_find?_eq_some hfind0
              obtain ⟨i1, hi1, hid1, hsz1, _⟩ := hacc i0 hi0acc
              have hg : g ∈ items := hgsub g (List.mem_cons_self _ _)
              have hi1g : i1 = g :=
                List.inj_on_of_nodup_map hnd hi1 hg (by rw [← hid1, hi0g])
              subst hxr
              rw [hr, applyChanges_position]
              have hcw := clampPos_within
                ⟨(dragMove item.position item.size d).x
                    + (g.position.x - item.position.x),
                  (dragMove item.position item.size d).y
                    + (g.position.y - item.position.y)⟩ g.size
                (hsz g hg).1 (hsz g hg).2
              refine ⟨g, hg, by rw [hi0g], by rw [hsz1, hi1g], Or.inr ?_⟩
              have hs : i0.size = g.size := by rw [hsz1, hi1g]
              rw [hs]
              exact ⟨hcw.1, hcw.2.1, hcw.2.2.1, hcw.2.2.2⟩
      have hsub : ∀ g ∈ (if item.type = ItemType.container
          then getItemsInsideContainer items itemId else []), g ∈ items := by
        intro g hg
        by_cases hc : item.type = ItemType.container
        · rw [if_pos hc] at hg
          exact mem_of_mem_getItemsInsideContainer hg
        · rw [if_neg hc] at hg
          cases hg
      exact hfold _ hsub _ haccP j hj

/-- A note near the right edge of the canvas, used to show that resize does
not clamp to the canvas extent. -/
def shelfNote : Item :=
  { id := "a", type := ItemType.note, title := "", position := ⟨4800, 0⟩,
    size := ⟨200, 100⟩, createdAt := 0, updatedAt := 0, content := some "" }

/-- C1 counterexample: a resize is not clamped to the canvas — resizing a
note at `x = 4800` by a pointer delta of `+1000` commits size `1200×100`
with the position unchanged, so `position.x + size.width = 6000 > 5000`
after the resize completes. -/
theorem canvas_clamp_counterexample :
    (resizeEnd [shelfNote] "a" true true [(1000, 0)] 1).map
        (fun i => (i.position, i.size)) = [(⟨4800, 0⟩, ⟨1200, 100⟩)] ∧
    ¬ ((4800 : Int) + 1200 ≤ canvasSize) := by decide

/-- C1 witness: the drag-clamp bound evaluated on a one-note store dragged
by `(300, 40)`. -/
theorem drag_commit_within_canvas_witness :
    (List.map Item.id [demoNote]).Nodup ∧
    (∀ i ∈ [demoNote], i.size.width ≤ canvasSize ∧ i.size.height ≤ canvasSize) ∧
    ∀ j ∈ dragEnd [demoNote] "item_1_aaaaaaa" [(300, 40)] 8,
      ∃ i ∈ [demoNote], j.id = i.id ∧ j.size = i.size ∧
        (j.position = i.position ∨
          (0 ≤ j.position.x ∧ j.position.x + j.size.width ≤ canvasSize ∧
           0 ≤ j.position.y ∧ j.position.y + j.size.height ≤ canvasSize)) :=
  ⟨by decide, by decide,
   drag_commit_within_canvas [demoNote] "item_1_aaaaaaa" [(300, 40)] 8
     (by decide) (by decide)⟩

/-- C2 (amended): dragging a container groups, once at drag-start, exactly
the non-container items (other than the container itself) whose center point
lies within the container's bounds, edges included.  Each grouped item keeps
its fixed offset from the container's top-left: on drag-end it is committed
at the container's final position plus that offset, clamped independently to
the canvas — so whenever the clamp does not bind, it moves by exactly the
container's displacement.  An item whose center lies outside the bounds is
unaffected.  (Container-type items are never grouped, even when their center
lies inside — see the counterexample.) -/
theorem container_group_drag (items : List Item) (c i : Item)
    (deltas : List (Int × Int)) (d : Int × Int) (now : Int)
    (hnd : (items.map Item.id).Nodup)
    (hfind : items.find? (fun a => a.id = c.id) = some c)
    (hct : c.type = ItemType.container)
    (hi : i ∈ items) (hne : i.id ≠ c.id)
    (hlast : deltas.getLast? = some d) :
    (i.type ≠ ItemType.container → centerInsideContainer i c = true →
      (dragEnd items c.id deltas now).find? (fun a => a.id = i.id)
        = some { i with
            position := clampPos
              ⟨(dragMove c.position c.size d).x + (i.position.x - c.position.x),
               (dragMove c.position c.size d).y + (i.position.y - c.position.y)⟩
              i.size
            updatedAt := now }) ∧
    (centerInsideContainer i c = false →
      (dragEnd items c.id deltas now).find? (fun a => a.id = i.id) = some i) ∧
    (i.type ≠ ItemType.container → centerInsideContainer i c = true →
      0 ≤ (dragMove c.position c.size d).x + (i.position.x - c.position.x) →
      (dragMove c.position c.size d).x + (i.position.x - c.position.x)
        ≤ canvasSize - i.size.width →
      0 ≤ (dragMove c.position c.size d).y + (i.position.y - c.position.y) →
      (dragMove c.position c.size d).y + (i.position.y - c.position.y)
        ≤ canvasSize - i.size.height →
      (dragEnd items c.id deltas now).find? (fun a => a.id = i.id)
        = some { i with
            position := ⟨i.position.x + ((dragMove c.position c.size d).x - c.position.x),
                         i.position.y + ((dragMove c.position c.size d).y - c.position.y)⟩
            updatedAt := now }) := by
  have hshape : dragEnd items c.id deltas now
      = (getItemsInsideContainer items c.id).foldl
          (fun acc g => commitPosition acc g.id
            (clampPos
              ⟨(dragMove c.position c.size d).x + (g.position.x - c.position.x),
               (dragMove c.position c.size d).y + (g.position.y - c.position.y)⟩
              g.size) now)
          (commitPosition items c.id (dragMove c.position c.size d) now) := by
    unfold dragEnd
    simp only [hfind, hlast]
    rw [if_pos hct]
  have hacc1 : (commitPosition items c.id (dragMove c.position c.size d) now).find?
      (fun a => a.id = i.id) = some i := by
    rw [find?_commitPosition_other hne]
    exact find?_eq_self_of_nodup hnd hi
  have hkey : i.type ≠ ItemType.container → centerInsideContainer i c = true →
      (dragEnd items c.id deltas now).find? (fun a => a.id = i.id)
        = some { i with
            position := clampPos
              ⟨(dragMove c.position c.size d).x + (i.position.x - c.position.x),
               (dragMove c.position c.size d).y + (i.position.y - c.position.y)⟩
              i.size
            updatedAt := now } := by
    intro hit hcenter
    rw [hshape]
    have himem : i ∈ getItemsInsideContainer items c.id :=
      (mem_getItemsInsideContainer_iff hfind hct).mpr
        ⟨hi, fun h => h.elim hne hit, hcenter⟩
    have hm := foldl_commit_find?_mem (getItemsInsideContainer items c.id)
      (fun g => clampPos
        ⟨(dragMove c.position c.size d).x + (g.position.x - c.position.x),
         (dragMove c.position c.size d).y + (g.position.y - c.position.y)⟩
        g.size) now i _ (nodup_getItemsInsideContainer hnd) himem hacc1
    exact hm.trans (congrArg some (applyChanges_position i
      (clampPos
        ⟨(dragMove c.position c.size d).x + (i.position.x - c.position.x),
         (dragMove c.position c.size d).y + (i.position.y - c.position.y)⟩
        i.size) now))
  refine ⟨hkey, ?_, ?_⟩
  · intro hcenter
    rw [hshape]
    have hnotin : ∀ g ∈ getItemsInsideContainer items c.id, g.id ≠ i.id := by
      intro g hg he
      have hgmem := mem_of_mem_getItemsInsideContainer hg
      have hgi : g = i := List.inj_on_of_nodup_map hnd hgmem hi he
      rw [hgi] at hg
      have hc2 := ((mem_getItemsInsideContainer_iff hfind hct).mp hg).2.2
      rw [hcenter] at hc2
      cases hc2
    have h1 := foldl_commit_find?_not_mem (getItemsInsideContainer items c.id)
      (fun g => clampPos
        ⟨(dragMove c.position c.size d).x + (g.position.x - c.position.x),
         (dragMove c.position c.size d).y + (g.position.y - c.position.y)⟩
        g.size) now i.id
      (commitPosition items c.id (dragMove c.position c.size d) now) hnotin
    exact h1.trans hacc1
  · intro hit hcenter hx1 hx2 hy1 hy2
    have hq : clampPos
        ⟨(dragMove c.position c.size d).x + (i.position.x - c.position.x),
         (dragMove c.position c.size d).y + (i.position.y - c.position.y)⟩ i.size
        = ⟨i.position.x + ((dragMove c.position c.size d).x - c.position.x),
           i.position.y + ((dragMove c.position c.size d).y - c.position.y)⟩ := by
      simp only [clampPos]
      rw [Pt.mk.injEq]
      constructor
      · rw [min_eq_left hx2, max_eq_right hx1]
        ring
      · rw [min_eq_left hy2, max_eq_right hy1]
        ring
    rw [hkey hit hcenter, hq]

/-- An outer container whose bounds contain the center of an inner
container. -/
def outerContainer : Item :=
  { id := "A", type := ItemType.container, title := "", position := ⟨0, 0⟩,
    size := ⟨400, 300⟩, createdAt := 0, updatedAt := 0, color := some "blue",
    children := some [] }

/-- An inner container centered at `(190, 140)`, inside the outer one. -/
def innerContainer : Item :=
  { id := "B", type := ItemType.container, title := "", position := ⟨40, 40⟩,
    size := ⟨300, 200⟩, createdAt := 0, updatedAt := 0, color := some "red",
    children := some [] }

/-- C2 counterexample: the grouping set is not "the items whose center lies
within the container's bounds" — container-type items are excluded.  The
inner container's center lies inside the outer container's bounds, the outer
container is dragged (and moves to `(100,100)`), but the inner container is
left exactly where it was. -/
theorem container_group_drag_counterexample :
    centerInsideContainer innerContainer outerContainer = true ∧
    (dragEnd [outerContainer, innerContainer] "A" [(100, 100)] 5).find?
        (fun a => a.id = "A")
      = some { outerContainer with position := ⟨100, 100⟩, updatedAt := 5 } ∧
    (dragEnd [outerContainer, innerContainer] "A" [(100, 100)] 5).find?
        (fun a => a.id = "B")
      = some innerContainer := by decide

/-- The container of the specified group-drag scenario, at `(100,100)` with
size `300×200`. -/
def groupContainer : Item :=
  { id := "C", type := ItemType.container, title := "", position := ⟨100, 100⟩,
    size := ⟨300, 200⟩, createdAt := 0, updatedAt := 0, color := some "blue",
    children := some [] }

/-- A note whose center lies at `(150, 150)`, inside the group container. -/
def groupedNote : Item :=
  { id := "n1", type := ItemType.note, title := "", position := ⟨140, 140⟩,
    size := ⟨20, 20⟩, createdAt := 0, updatedAt := 0, content := some "" }

/-- C2 witness: the group-drag law evaluated on the container at
`(100,100,300,200)` and a note centered at `(150,150)`, dragged by
`(+50,+50)`. -/
theorem container_group_drag_witness :
    (groupedNote.type ≠ ItemType.container →
      centerInsideContainer groupedNote groupContainer = true →
      (dragEnd [groupContainer, groupedNote] "C" [(50, 50)] 6).find?
          (fun a => a.id = "n1")
        = some { groupedNote with
            position := clampPos
              ⟨(dragMove groupContainer.position groupContainer.size (50, 50)).x
                  + (groupedNote.position.x - groupContainer.position.x),
               (dragMove groupContainer.position groupContainer.size (50, 50)).y
                  + (groupedNote.position.y - groupContainer.position.y)⟩
              groupedNote.size
            updatedAt := 6 }) ∧
    (centerInsideContainer groupedNote groupContainer = false →
      (dragEnd [groupContainer, groupedNote] "C" [(50, 50)] 6).find?
          (fun a => a.id = "n1") = some groupedNote) ∧
    (groupedNote.type ≠ ItemType.container →
      centerInsideContainer groupedNote groupContainer = true →
      0 ≤ (dragMove groupContainer.position groupContainer.size (50, 50)).x
          + (groupedNote.position.x - groupContainer.position.x) →
      (dragMove groupContainer.position groupContainer.size (50, 50)).x
          + (groupedNote.position.x - groupContainer.position.x)
        ≤ canvasSize - groupedNote.size.width →
      0 ≤ (dragMove groupContainer.position groupContainer.size (50, 50)).y
          + (groupedNote.position.y - groupContainer.position.y) →
      (dragMove groupContainer.position groupContainer.size (50, 50)).y
          + (groupedNote.position.y - groupContainer.position.y)
        ≤ canvasSize - groupedNote.size.height →
      (dragEnd [groupContainer, groupedNote] "C" [(50, 50)] 6).find?
          (fun a => a.id = "n1")
        = some { groupedNote with
            position := ⟨groupedNote.position.x
                + ((dragMove groupContainer.position groupContainer.size (50, 50)).x
                  - groupContainer.position.x),
              groupedNote.position.y
                + ((dragMove groupContainer.position groupContainer.size (50, 50)).y
                  - groupContainer.position.y)⟩
            updatedAt := 6 }) :=
  container_group_drag [groupContainer, groupedNote] groupContainer groupedNote
    [(50, 50)] (50, 50) 6 (by decide) (by decide) (by decide) (by decide)
    (by decide) (by decide)

end SpawnCanvas
